import Mathlib

/-!
# Oscilloscope and ultrasonic recorder: the capture and recording pipeline

Shallow embedding of `src/main.c`.

* Memory.  An array of `SAMPLE` (C `short`) is a function from an index to the
  sample stored there.  A heap block additionally carries the number of sample
  slots that were allocated for it, so that a write or read outside the block
  can be told apart from one inside it.
* Undefined behaviour.  A function whose C body can write or read outside an
  object returns `Option`; `none` means that the C program has left defined
  behaviour (a copy overran `buffer` or the heap block, or went through `NULL`).
* Machine integers.  `size_t` and `unsigned long` are 64 bits wide (LP64);
  their arithmetic is written with an explicit `% SIZE_MODULUS`.
* Environment.  What the C code cannot decide by itself is an argument: the
  outcome of each PortAudio call (`PaEnv`), of `realloc` (`ReallocOutcome`) and
  of `sf_open`.  The PortAudio calls a function issues are returned as a list,
  in program order.
* Threads.  Each function is embedded as sequential code.  `buffer`, the one
  object the callback writes while `on_draw` may read it, is also described in
  the middle of its write (`buffer_mid_write`): samples are stored in ascending
  order and a reader looks at the buffer between two stores.
* GTK widgets, drawing, labels and console messages are not modelled.
-/

namespace Osciloscopio

/-! ## Constants and types of `main.c` -/

/-- Macro `FRAMES_PER_BUFFER` (line 9). -/
def FRAMES_PER_BUFFER : Nat := 256

/-- Macro `CHANNELS` (line 10). -/
def CHANNELS : Nat := 1

/-- Value of `sizeof(SAMPLE)`, with `typedef short SAMPLE`. -/
def SIZEOF_SAMPLE : Nat := 2

/-- One more than `SIZE_MAX`: `size_t` arithmetic is taken modulo this. -/
def SIZE_MODULUS : Nat := 2 ^ 64

/-- Largest object size the allocator can hand out (`PTRDIFF_MAX` on LP64). -/
def PTRDIFF_MAX : Nat := 2 ^ 63 - 1

/-- The capacity increment of line 52, `44100 * 10` samples. -/
def GROWTH_STEP : Nat := 44100 * 10

/-- A heap block of `SAMPLE`s: `size` slots were allocated, `cells i` is the
content of slot `i` (meaningful for `i < size` only). -/
structure Block where
  size : Nat
  cells : Nat → Int

/-- The struct `AppData` (lines 15-30) without its two GTK fields.
`stream` and `recorded_samples` are pointers: `none` is `NULL`. -/
structure AppData where
  buffer : Nat → Int
  buffer_ready : Int
  sample_rate : Int
  recording : Bool
  stream : Option Nat
  recorded_samples : Option Block
  recorded_samples_capacity : Nat
  recorded_samples_count : Nat

/-- The global of line 32, `static AppData app_data = {0}`. -/
def app_data : AppData where
  buffer := fun _ => 0
  buffer_ready := 0
  sample_rate := 0
  recording := false
  stream := none
  recorded_samples := none
  recorded_samples_capacity := 0
  recorded_samples_count := 0

/-- Return values of a PortAudio stream callback (`portaudio.h`). -/
inductive PaStreamCallbackResult where
  | paContinue
  | paComplete
  | paAbort
  deriving DecidableEq, Repr

/-! ## The C library -/

/-- Copy of `n` samples from `src[0..n)` to `dst[off..off+n)`. -/
def memcpy (dst : Nat → Int) (off : Nat) (src : Nat → Int) (n : Nat) : Nat → Int :=
  fun i => if off ≤ i ∧ i < off + n then src (i - off) else dst i

/-- Zero fill of `dst[0..n)`. -/
def memset (dst : Nat → Int) (n : Nat) : Nat → Int :=
  fun i => if i < n then 0 else dst i

/-- What the allocator decides at one `realloc` call: it refuses, or it grants
the request and the slots beyond the old block hold the indeterminate values
`fresh`. -/
inductive ReallocOutcome where
  | fail
  | ok (fresh : Nat → Int)

/-- The call `realloc(ptr, bytes)`.  `none` is a `NULL` return, in which case the
old block is untouched.  A request above `PTRDIFF_MAX` bytes is always refused.
A granted request keeps the old contents and has `bytes / sizeof(SAMPLE)`
slots. -/
def realloc (outcome : ReallocOutcome) (ptr : Option Block) (bytes : Nat) : Option Block :=
  match outcome with
  | .fail => none
  | .ok fresh =>
    if bytes > PTRDIFF_MAX then none
    else some
      { size := bytes / SIZEOF_SAMPLE
        cells := fun i =>
          match ptr with
          | none => fresh i
          | some b => if i < b.size then b.cells i else fresh i }

/-! ## PortAudio -/

/-- The PortAudio calls `main.c` makes; stream arguments are the handle passed. -/
inductive PaCall where
  | Pa_Initialize
  | Pa_OpenDefaultStream (numInputChannels : Nat) (sampleRate : Int) (framesPerBuffer : Nat)
  | Pa_StartStream (stream : Option Nat)
  | Pa_StopStream (stream : Option Nat)
  | Pa_CloseStream (stream : Option Nat)
  | Pa_Terminate
  deriving DecidableEq, Repr

/-- Outcome of the three fallible PortAudio calls of `start_recording`.
`initOk` and `startOk`: the call returned `paNoError`.  `opened = some h`:
`Pa_OpenDefaultStream` returned `paNoError` and stored the non-null handle `h`
through `&data->stream`; `opened = none`: it failed and stored nothing. -/
structure PaEnv where
  initOk : Bool
  opened : Option Nat
  startOk : Bool

/-! ## `pa_callback` (lines 35-70) -/

/-- The stream callback.  `inputBuffer = none` is a `NULL` input; otherwise it
points to the delivered samples.  `alloc` is what `realloc` decides, should the
callback call it. -/
def pa_callback (inputBuffer : Option (Nat → Int)) (framesPerBuffer : Nat)
    (alloc : ReallocOutcome) (data : AppData) : Option (PaStreamCallbackResult × AppData) :=
  -- both branches write `framesPerBuffer` samples into `SAMPLE buffer[FRAMES_PER_BUFFER]`
  if framesPerBuffer > FRAMES_PER_BUFFER then none
  else
    match inputBuffer with
    | none =>
      some (.paContinue,
        { data with buffer := memset data.buffer framesPerBuffer, buffer_ready := 1 })
    | some inp =>
      let data := { data with buffer := memcpy data.buffer 0 inp framesPerBuffer }
      if data.recording then
        -- lines 51-60; `none` stands for the early `return paComplete`
        let grown : Option AppData :=
          if (data.recorded_samples_count + framesPerBuffer) % SIZE_MODULUS
              > data.recorded_samples_capacity then
            let new_capacity := (data.recorded_samples_capacity + GROWTH_STEP) % SIZE_MODULUS
            match realloc alloc data.recorded_samples
                ((new_capacity * SIZEOF_SAMPLE) % SIZE_MODULUS) with
            | none => none
            | some new_buf =>
              some { data with recorded_samples := some new_buf
                               recorded_samples_capacity := new_capacity }
          else some data
        match grown with
        | none => some (.paComplete, data)
        | some data =>
          -- line 62: the copy must land inside the heap block
          match data.recorded_samples with
          | none => none
          | some b =>
            if data.recorded_samples_count + framesPerBuffer ≤ b.size then
              some (.paContinue,
                { data with
                  recorded_samples :=
                    some { b with cells := memcpy b.cells data.recorded_samples_count inp
                                            framesPerBuffer }
                  recorded_samples_count :=
                    (data.recorded_samples_count + framesPerBuffer) % SIZE_MODULUS
                  buffer_ready := 1 })
            else none
      else some (.paContinue, { data with buffer_ready := 1 })

/-! ## `start_recording` (lines 129-171) and `stop_recording` (lines 174-182) -/

/-- Returns the `gboolean` result, the new state and the PortAudio calls made. -/
def start_recording (env : PaEnv) (data : AppData) : Bool × AppData × List PaCall :=
  if data.recording then (false, data, [])
  else if !env.initOk then (false, data, [.Pa_Initialize])
  else
    let openCall := PaCall.Pa_OpenDefaultStream CHANNELS data.sample_rate FRAMES_PER_BUFFER
    match env.opened with
    | none => (false, data, [.Pa_Initialize, openCall, .Pa_Terminate])
    | some h =>
      let data := { data with stream := some h }
      -- lines 156-159: free the old block and reset the store
      let data := { data with recorded_samples := none
                              recorded_samples_capacity := 0
                              recorded_samples_count := 0 }
      if !env.startOk then
        (false, data,
          [.Pa_Initialize, openCall, .Pa_StartStream data.stream,
           .Pa_CloseStream data.stream, .Pa_Terminate])
      else
        (true, { data with recording := true },
          [.Pa_Initialize, openCall, .Pa_StartStream data.stream])

/-- Returns the new state and the PortAudio calls made. -/
def stop_recording (data : AppData) : AppData × List PaCall :=
  if !data.recording then (data, [])
  else
    ({ data with recording := false },
      [.Pa_StopStream data.stream, .Pa_CloseStream data.stream, .Pa_Terminate])

/-! ## `save_wav` (lines 185-217) -/

/-- What `save_wav` did: nothing (empty store), gave up because `sf_open`
failed, or called `sf_write_short` on a file opened with the given sample rate
and channel count, passing `items`. -/
inductive SaveOutcome where
  | nothingToSave
  | openFailed
  | written (samplerate : Int) (channels : Nat) (items : List Int)
  deriving DecidableEq, Repr

/-- The samples `ptr[0..count)` that `sf_write_short(outfile, ptr, count)`
reads; `none` when that range is not inside an allocated block. -/
def sf_write_short (ptr : Option Block) (count : Nat) : Option (List Int) :=
  match ptr with
  | none => none
  | some b => if count ≤ b.size then some ((List.range count).map b.cells) else none

/-- With `sfOpenOk`: `sf_open` returned a file. -/
def save_wav (sfOpenOk : Bool) (data : AppData) : Option SaveOutcome :=
  if data.recorded_samples_count = 0 then some .nothingToSave
  else if !sfOpenOk then some .openFailed
  else
    match sf_write_short data.recorded_samples data.recorded_samples_count with
    | none => none
    | some items => some (.written data.sample_rate CHANNELS items)

/-! ## `on_freq_scale_value_changed` (lines 238-253) -/

/-- The slider handler; `new_rate` is `(int)gtk_range_get_value(range)` and `env`
the driver outcomes of the restart. -/
def on_freq_scale_value_changed (new_rate : Int) (env : PaEnv) (data : AppData) :
    AppData × List PaCall :=
  let data := { data with sample_rate := new_rate }
  if data.recording then
    let stopped := stop_recording data
    let started := start_recording env stopped.1
    (started.2.1, stopped.2 ++ started.2.2)
  else (data, [])

/-! ## `on_draw` (lines 73-119): the RMS bar, in exact arithmetic -/

/-- The loop of lines 105-109: `rms += s * s` with `s = buffer[i] / 32768.0`. -/
def rms_accumulate (buffer : Nat → Int) : ℚ :=
  (List.range FRAMES_PER_BUFFER).foldl
    (fun rms i => rms + ((buffer i : ℚ) / 32768) * ((buffer i : ℚ) / 32768)) 0

/-- The argument of `sqrt` on line 110, `rms / FRAMES_PER_BUFFER`; `none` when
`on_draw` returns at line 77 because no frame has been written yet. -/
def on_draw_mean_square (data : AppData) : Option ℚ :=
  if data.buffer_ready = 0 then none
  else some (rms_accumulate data.buffer / (FRAMES_PER_BUFFER : ℚ))

/-! ## The write of `buffer` as another thread finds it -/

/-- One invocation of an operation on the global state, with the environment's
choices.  The callback is always invoked with `FRAMES_PER_BUFFER` frames, the
value `start_recording` opens the stream with. -/
inductive Action where
  | start (env : PaEnv)
  | stop
  | callback (inputBuffer : Option (Nat → Int)) (alloc : ReallocOutcome)

/-- State after one invocation. -/
def step (a : Action) (data : AppData) : Option AppData :=
  match a with
  | .start env => some (start_recording env data).2.1
  | .stop => some (stop_recording data).1
  | .callback inp alloc => (pa_callback inp FRAMES_PER_BUFFER alloc data).map Prod.snd

/-- State after a sequence of invocations, first to last. -/
def run : List Action → AppData → Option AppData
  | [], data => some data
  | a :: rest, data =>
    match step a data with
    | none => none
    | some data => run rest data

/-- The input pointer for a frame given as a list of samples. -/
def framePtr (f : List Int) : Nat → Int := fun i => f.getD i 0

/-- Delivery of the frames, in order, to `pa_callback` while the state evolves;
each frame comes with the allocator's decision for that call.  Yields the
callback's return values and the final state. -/
def deliver : List (List Int × ReallocOutcome) → AppData →
    Option (List PaStreamCallbackResult × AppData)
  | [], data => some ([], data)
  | (f, alloc) :: rest, data =>
    match pa_callback (some (framePtr f)) FRAMES_PER_BUFFER alloc data with
    | none => none
    | some (r, data) =>
      match deliver rest data with
      | none => none
      | some (rs, data) => some (r :: rs, data)

/-- The recorded samples `recorded_samples[0 .. recorded_samples_count)`. -/
def snapshot (data : AppData) : List Int :=
  match data.recorded_samples with
  | none => []
  | some b => (List.range data.recorded_samples_count).map b.cells

/-! ## Predicates and quantities used in the statements -/

/-- Number of sample slots of the block `recorded_samples` points to. -/
def allocated (data : AppData) : Nat :=
  match data.recorded_samples with
  | none => 0
  | some b => b.size

/-- Well-formed recording store: the count is within the capacity, the
capacity field is the size of the block, and the block is an object the
allocator can have handed out. -/
def StoreOk (data : AppData) : Prop :=
  data.recorded_samples_count ≤ data.recorded_samples_capacity ∧
  allocated data = data.recorded_samples_capacity ∧
  data.recorded_samples_capacity * SIZEOF_SAMPLE ≤ PTRDIFF_MAX

/-- Growth is required: the test of line 51. -/
def needsGrowth (data : AppData) (framesPerBuffer : Nat) : Bool :=
  decide ((data.recorded_samples_count + framesPerBuffer) % SIZE_MODULUS
    > data.recorded_samples_capacity)

/-- The byte count passed to `realloc` on line 53. -/
def growthBytes (data : AppData) : Nat :=
  (((data.recorded_samples_capacity + GROWTH_STEP) % SIZE_MODULUS) * SIZEOF_SAMPLE) % SIZE_MODULUS

/-- Session invariant: the store is well formed and an active session holds a
stream handle. -/
def SessionOk (data : AppData) : Prop :=
  StoreOk data ∧ (data.recording = true → data.stream ≠ none)

/-- The capacity `cap` is the smallest multiple of `unit` that is at least `count`. -/
def IsLeastMultiple (unit cap count : Nat) : Prop :=
  unit ∣ cap ∧ count ≤ cap ∧ ∀ m, unit ∣ m → count ≤ m → cap ≤ m

/-! ## Lemmas on the C library and on `pa_callback` -/

/-- A granted `realloc`: the request was within the limit, the new block has the
requested number of slots, and the slots of the old block keep their content. -/
theorem realloc_eq_some {outcome : ReallocOutcome} {ptr : Option Block} {bytes : Nat}
    {nb : Block} (h : realloc outcome ptr bytes = some nb) :
    bytes ≤ PTRDIFF_MAX ∧ nb.size = bytes / SIZEOF_SAMPLE ∧
      ∀ b, ptr = some b → ∀ i, i < b.size → nb.cells i = b.cells i := by
  unfold realloc at h
  cases outcome with
  | fail => simp at h
  | ok fresh =>
    simp only at h
    split at h
    · simp at h
    · rename_i hb
      simp only [Option.some.injEq] at h
      subst h
      refine ⟨by omega, rfl, ?_⟩
      intro b hb i hi
      subst hb
      simp [hi]

/-- A `NULL` input only fills `buffer` with silence. -/
theorem pa_callback_null (n : Nat) (hn : n ≤ FRAMES_PER_BUFFER) (alloc : ReallocOutcome)
    (s : AppData) :
    pa_callback none n alloc s =
      some (.paContinue, { s with buffer := memset s.buffer n, buffer_ready := 1 }) := by
  unfold pa_callback
  simp [Nat.not_lt.mpr hn]

/-- While not recording, a frame only goes to `buffer`. -/
theorem pa_callback_idle (inp : Nat → Int) (n : Nat) (hn : n ≤ FRAMES_PER_BUFFER)
    (alloc : ReallocOutcome) (s : AppData) (hrec : s.recording = false) :
    pa_callback (some inp) n alloc s =
      some (.paContinue, { s with buffer := memcpy s.buffer 0 inp n, buffer_ready := 1 }) := by
  unfold pa_callback
  simp [Nat.not_lt.mpr hn, hrec]

/-- The early return of line 56: only `buffer` has changed. -/
theorem pa_callback_alloc_failure (inp : Nat → Int) (n : Nat) (hn : n ≤ FRAMES_PER_BUFFER)
    (alloc : ReallocOutcome) (s : AppData) (hrec : s.recording = true)
    (hgrow : needsGrowth s n)
    (hfail : realloc alloc s.recorded_samples (growthBytes s) = none) :
    pa_callback (some inp) n alloc s =
      some (.paComplete, { s with buffer := memcpy s.buffer 0 inp n }) := by
  unfold needsGrowth at hgrow
  simp only [decide_eq_true_eq] at hgrow
  unfold growthBytes at hfail
  unfold pa_callback
  simp only [Nat.mod_mul_mod] at hfail
  simp [Nat.not_lt.mpr hn, hrec, hgrow, hfail]

/-- Numeral form of `SIZE_MODULUS`. -/
theorem size_modulus_val : SIZE_MODULUS = 18446744073709551616 := by
  norm_num [SIZE_MODULUS]

/-- Numeral form of `PTRDIFF_MAX`. -/
theorem ptrdiff_max_val : PTRDIFF_MAX = 9223372036854775807 := by
  norm_num [PTRDIFF_MAX]

/-- Numeral form of `GROWTH_STEP`. -/
theorem growth_step_val : GROWTH_STEP = 441000 := by
  norm_num [GROWTH_STEP]

/-- Reading back `c + n` slots after a copy of `n` samples at offset `c`. -/
theorem snapshot_append (b nb : Block) (c n : Nat) (inp : Nat → Int)
    (hold : ∀ i, i < c → nb.cells i = b.cells i) :
    (List.range (c + n)).map (memcpy nb.cells c inp n) =
      (List.range c).map b.cells ++ (List.range n).map inp := by
  rw [List.range_add, List.map_append, List.map_map]
  congr 1
  · apply List.map_congr_left
    intro i hi
    have hi' : i < c := List.mem_range.mp hi
    simp [memcpy, Nat.not_le.mpr hi', hold i hi']
  · apply List.map_congr_left
    intro i hi
    have hi' : i < n := List.mem_range.mp hi
    simp [memcpy, hi']

/-- One callback with a frame on a well-formed store while recording: it is
defined, keeps the store well formed, and either appends the frame
(`paContinue`) or leaves the store alone because `realloc` refused
(`paComplete`). -/
theorem pa_callback_recording (inp : Nat → Int) (alloc : ReallocOutcome) (s : AppData)
    (hok : StoreOk s) (hrec : s.recording = true) :
    ∃ r s', pa_callback (some inp) FRAMES_PER_BUFFER alloc s = some (r, s') ∧ StoreOk s' ∧
      s'.recording = true ∧ s'.stream = s.stream ∧ s'.sample_rate = s.sample_rate ∧
      (r = .paContinue ∨ r = .paComplete) ∧
      (r = .paComplete →
        s'.recorded_samples = s.recorded_samples ∧
        s'.recorded_samples_count = s.recorded_samples_count ∧
        s'.recorded_samples_capacity = s.recorded_samples_capacity ∧
        s.recorded_samples_capacity < s.recorded_samples_count + FRAMES_PER_BUFFER ∧
        realloc alloc s.recorded_samples
          ((s.recorded_samples_capacity + GROWTH_STEP) * SIZEOF_SAMPLE) = none) ∧
      (r = .paContinue →
        s'.recorded_samples_count = s.recorded_samples_count + FRAMES_PER_BUFFER ∧
        snapshot s' = snapshot s ++ (List.range FRAMES_PER_BUFFER).map inp ∧
        s'.recorded_samples_capacity =
          if s.recorded_samples_count + FRAMES_PER_BUFFER ≤ s.recorded_samples_capacity
          then s.recorded_samples_capacity
          else s.recorded_samples_capacity + GROWTH_STEP) := by
  obtain ⟨hcc, hsz, hlim⟩ := hok
  have hM := size_modulus_val
  have hG := growth_step_val
  have hF : FRAMES_PER_BUFFER = 256 := rfl
  have hS : SIZEOF_SAMPLE = 2 := rfl
  have hlim' := hlim
  rw [hS, ptrdiff_max_val] at hlim'
  by_cases hfit : s.recorded_samples_count + FRAMES_PER_BUFFER ≤ s.recorded_samples_capacity
  · -- no growth
    have hfit' := hfit
    rw [hF] at hfit'
    have hmod : (s.recorded_samples_count + FRAMES_PER_BUFFER) % SIZE_MODULUS =
        s.recorded_samples_count + FRAMES_PER_BUFFER := by
      apply Nat.mod_eq_of_lt; rw [hM, hF]; omega
    cases hb : s.recorded_samples with
    | none =>
      simp [allocated, hb] at hsz
      omega
    | some b =>
      simp [allocated, hb] at hsz
      refine ⟨.paContinue,
        { s with
          buffer := memcpy s.buffer 0 inp FRAMES_PER_BUFFER
          recorded_samples :=
            some { b with cells := memcpy b.cells s.recorded_samples_count inp FRAMES_PER_BUFFER }
          recorded_samples_count := s.recorded_samples_count + FRAMES_PER_BUFFER
          buffer_ready := 1 }, ?_, ?_⟩
      · unfold pa_callback
        simp [hrec, hmod, hb, Nat.not_lt.mpr hfit, hsz, hfit]
      · refine ⟨⟨?_, ?_, hlim⟩, hrec, rfl, rfl, Or.inl rfl, ?_, ?_⟩
        · exact hfit
        · simp [allocated, hsz]
        · intro h; cases h
        · intro _
          refine ⟨rfl, ?_, ?_⟩
          · simp only [snapshot, hb]
            exact snapshot_append b b _ _ inp (fun _ _ => rfl)
          · simp [hfit]
  · -- growth required
    have hfit' := hfit
    rw [hF] at hfit'
    have hmod : (s.recorded_samples_count + FRAMES_PER_BUFFER) % SIZE_MODULUS =
        s.recorded_samples_count + FRAMES_PER_BUFFER := by
      apply Nat.mod_eq_of_lt; rw [hM, hF]; omega
    have hcap : (s.recorded_samples_capacity + GROWTH_STEP) % SIZE_MODULUS =
        s.recorded_samples_capacity + GROWTH_STEP := by
      apply Nat.mod_eq_of_lt; rw [hM, hG]; omega
    have hbytes : ((s.recorded_samples_capacity + GROWTH_STEP) * SIZEOF_SAMPLE) % SIZE_MODULUS =
        (s.recorded_samples_capacity + GROWTH_STEP) * SIZEOF_SAMPLE := by
      apply Nat.mod_eq_of_lt; rw [hM, hG, hS]; omega
    have hgrow : needsGrowth s FRAMES_PER_BUFFER = true := by
      unfold needsGrowth; rw [hmod]; simp only [decide_eq_true_eq]; omega
    have hgb : growthBytes s = (s.recorded_samples_capacity + GROWTH_STEP) * SIZEOF_SAMPLE := by
      unfold growthBytes; rw [hcap, hbytes]
    cases hre : realloc alloc s.recorded_samples
        ((s.recorded_samples_capacity + GROWTH_STEP) * SIZEOF_SAMPLE) with
    | none =>
      refine ⟨.paComplete, { s with buffer := memcpy s.buffer 0 inp FRAMES_PER_BUFFER },
        ?_, ⟨hcc, hsz, hlim⟩, hrec, rfl, rfl, Or.inr rfl, ?_, ?_⟩
      · exact pa_callback_alloc_failure inp _ (le_refl _) alloc s hrec hgrow (by rw [hgb]; exact hre)
      · intro _; exact ⟨rfl, rfl, rfl, Nat.lt_of_not_le hfit, rfl⟩
      · intro h; cases h
    | some nb =>
      obtain ⟨hle, hnsz, hkeep⟩ := realloc_eq_some hre
      have hnsz' : nb.size = s.recorded_samples_capacity + GROWTH_STEP := by
        rw [hnsz, hS]; omega
      refine ⟨.paContinue,
        { s with
          buffer := memcpy s.buffer 0 inp FRAMES_PER_BUFFER
          recorded_samples :=
            some { nb with cells := memcpy nb.cells s.recorded_samples_count inp FRAMES_PER_BUFFER }
          recorded_samples_capacity := s.recorded_samples_capacity + GROWTH_STEP
          recorded_samples_count := s.recorded_samples_count + FRAMES_PER_BUFFER
          buffer_ready := 1 }, ?_, ?_⟩
      · have hfits : s.recorded_samples_count + FRAMES_PER_BUFFER ≤ nb.size := by
          rw [hnsz', hG, hF]; omega
        unfold pa_callback
        simp [hrec, hmod, hcap, hbytes, Nat.lt_of_not_le hfit, hre, hfits]
      · refine ⟨⟨?_, ?_, hle⟩, hrec, rfl, rfl, Or.inl rfl, ?_, ?_⟩
        · show s.recorded_samples_count + FRAMES_PER_BUFFER ≤
            s.recorded_samples_capacity + GROWTH_STEP
          rw [hG, hF]; omega
        · simp [allocated, hnsz']
        · intro h; cases h
        · intro _
          refine ⟨rfl, ?_, ?_⟩
          · cases hb : s.recorded_samples with
            | none =>
              have hc0 : s.recorded_samples_count = 0 := by
                simp [allocated, hb] at hsz
                omega
              simp only [snapshot, hb]
              rw [hc0]
              simpa using snapshot_append nb nb 0 FRAMES_PER_BUFFER inp (fun _ _ => rfl)
            | some b =>
              simp only [snapshot, hb]
              have hbs : b.size = s.recorded_samples_capacity := by
                simpa [allocated, hb] using hsz
              exact snapshot_append b nb _ _ inp
                (fun i hi => hkeep b hb i (by omega))
          · simp [hfit]

/-- A granted request with room below the allocator's limit makes the callback
return `paContinue`. -/
theorem pa_callback_granted (inp : Nat → Int) (fresh : Nat → Int) (s : AppData)
    (hok : StoreOk s) (hrec : s.recording = true)
    (hroom : (s.recorded_samples_count + FRAMES_PER_BUFFER + GROWTH_STEP) * SIZEOF_SAMPLE
      ≤ PTRDIFF_MAX)
    (r : PaStreamCallbackResult) (s' : AppData)
    (hcall : pa_callback (some inp) FRAMES_PER_BUFFER (ReallocOutcome.ok fresh) s = some (r, s')) :
    r = PaStreamCallbackResult.paContinue := by
  obtain ⟨r1, s1, hcall1, _, _, _, _, hr, hcomp, _⟩ :=
    pa_callback_recording inp (ReallocOutcome.ok fresh) s hok hrec
  rw [hcall1] at hcall
  simp only [Option.some.injEq, Prod.mk.injEq] at hcall
  obtain ⟨h1, _⟩ := hcall
  subst h1
  rcases hr with hr | hr
  · exact hr
  · obtain ⟨_, _, _, hlt, hnone⟩ := hcomp hr
    exfalso
    have hS : SIZEOF_SAMPLE = 2 := rfl
    rw [hS] at hroom
    have hsmall : (s.recorded_samples_capacity + GROWTH_STEP) * SIZEOF_SAMPLE ≤ PTRDIFF_MAX := by
      rw [hS]; omega
    simp [realloc, Nat.not_lt.mpr hsmall] at hnone

/-- The zero-initialised global has a well-formed store. -/
theorem storeOk_app_data : StoreOk app_data := by
  refine ⟨le_refl _, rfl, ?_⟩
  rw [ptrdiff_max_val]
  decide

/-- The zero-initialised global satisfies the session invariant. -/
theorem sessionOk_app_data : SessionOk app_data :=
  ⟨storeOk_app_data, fun h => by cases h⟩

/-- The store as reset by lines 156-159 is well formed. -/
theorem storeOk_reset (s : AppData) (st : Option Nat) (r : Bool) :
    StoreOk { s with stream := st, recorded_samples := none, recorded_samples_capacity := 0,
                     recorded_samples_count := 0, recording := r } := by
  refine ⟨le_refl _, rfl, ?_⟩
  show 0 * SIZEOF_SAMPLE ≤ PTRDIFF_MAX
  rw [ptrdiff_max_val]
  decide

/-- The session invariant is kept by `start_recording`. -/
theorem start_recording_sessionOk (env : PaEnv) (s : AppData) (h : SessionOk s) :
    SessionOk (start_recording env s).2.1 := by
  unfold start_recording
  by_cases hrec : s.recording = true
  · simpa [hrec] using h
  · have hrec' : s.recording = false := by simpa using hrec
    cases hi : env.initOk with
    | false => simpa [hrec', hi] using h
    | true =>
      cases ho : env.opened with
      | none => simpa [hrec', hi, ho] using h
      | some hdl =>
        cases hs : env.startOk with
        | false =>
          simp only [hrec', hi, ho, hs]
          exact ⟨storeOk_reset s (some hdl) false, fun hh => by simp at hh⟩
        | true =>
          simp only [hrec', hi, ho, hs]
          exact ⟨storeOk_reset s (some hdl) true, fun _ => by simp⟩

/-- The session invariant is kept by `stop_recording`. -/
theorem stop_recording_sessionOk (s : AppData) (h : SessionOk s) :
    SessionOk (stop_recording s).1 := by
  unfold stop_recording
  cases hrec : s.recording with
  | false => simpa [hrec] using h
  | true =>
    exact ⟨h.1, fun hh => by simp at hh⟩

/-- The session invariant is kept by `pa_callback`, which is defined on it. -/
theorem pa_callback_sessionOk (inp : Option (Nat → Int)) (alloc : ReallocOutcome) (s : AppData)
    (h : SessionOk s) :
    ∃ r s', pa_callback inp FRAMES_PER_BUFFER alloc s = some (r, s') ∧ SessionOk s' := by
  cases inp with
  | none =>
    exact ⟨_, _, pa_callback_null _ (le_refl _) alloc s, h⟩
  | some f =>
    cases hrec : s.recording with
    | false =>
      refine ⟨_, _, pa_callback_idle f _ (le_refl _) alloc s hrec, h.1, ?_⟩
      intro hh
      exact h.2 hh
    | true =>
      obtain ⟨r, s', hcall, hok, hr, hst, _⟩ := pa_callback_recording f alloc s h.1 hrec
      exact ⟨r, s', hcall, hok, fun _ => by rw [hst]; exact h.2 hrec⟩

/-- The session invariant is kept by every invocation. -/
theorem step_sessionOk (a : Action) (s : AppData) (h : SessionOk s) :
    ∃ s', step a s = some s' ∧ SessionOk s' := by
  cases a with
  | start env => exact ⟨_, rfl, start_recording_sessionOk env s h⟩
  | stop => exact ⟨_, rfl, stop_recording_sessionOk s h⟩
  | callback inp alloc =>
    obtain ⟨r, s', hcall, hok⟩ := pa_callback_sessionOk inp alloc s h
    exact ⟨s', by simp [step, hcall], hok⟩

/-- The session invariant is kept by every sequence of invocations. -/
theorem run_sessionOk (acts : List Action) (s : AppData) (h : SessionOk s) :
    ∃ s', run acts s = some s' ∧ SessionOk s' := by
  induction acts generalizing s with
  | nil => exact ⟨s, rfl, h⟩
  | cons a rest ih =>
    obtain ⟨s1, hstep, h1⟩ := step_sessionOk a s h
    obtain ⟨s2, hrun, h2⟩ := ih s1 h1
    exact ⟨s2, by simp [run, hstep, hrun], h2⟩

/-- C1. In every state reached from the zero-initialised `app_data` by any
sequence of `start_recording`, `stop_recording` and `pa_callback` invocations
with 256 frames (input null or not, `realloc` granting or refusing), the
sequence stays within defined behaviour, `recorded_samples_count` is at most
`recorded_samples_capacity`, the capacity field is the size of the allocated
block, and a further callback, whatever its input and whatever `realloc`
decides, performs no copy that leaves the block. -/
theorem C1_count_le_capacity (acts : List Action) :
    ∃ s, run acts app_data = some s ∧
      s.recorded_samples_count ≤ s.recorded_samples_capacity ∧
      allocated s = s.recorded_samples_capacity ∧
      ∀ inp alloc, (pa_callback inp FRAMES_PER_BUFFER alloc s).isSome = true := by
  obtain ⟨s, hrun, hok⟩ := run_sessionOk acts app_data sessionOk_app_data
  refine ⟨s, hrun, hok.1.1, hok.1.2.1, ?_⟩
  intro inp alloc
  obtain ⟨r, s', hcall, _⟩ := pa_callback_sessionOk inp alloc s hok
  simp [hcall]

/-- Reading a frame back through its pointer. -/
theorem framePtr_range (f : List Int) :
    (List.range f.length).map (framePtr f) = f := by
  apply List.ext_getElem
  · simp
  · intro i h1 h2
    simp [framePtr, List.getD_eq_getElem?_getD, List.getElem?_eq_getElem h2]

/-- One append keeps the capacity the least multiple of the step above the count. -/
theorem leastMultiple_step (cap count : Nat) (h : IsLeastMultiple GROWTH_STEP cap count) :
    IsLeastMultiple GROWTH_STEP
      (if count + FRAMES_PER_BUFFER ≤ cap then cap else cap + GROWTH_STEP)
      (count + FRAMES_PER_BUFFER) := by
  obtain ⟨⟨q, hq⟩, hle, hmin⟩ := h
  have hG := growth_step_val
  have hF : FRAMES_PER_BUFFER = 256 := rfl
  by_cases hfit : count + FRAMES_PER_BUFFER ≤ cap
  · rw [if_pos hfit]
    exact ⟨⟨q, hq⟩, hfit, fun m hm hcm => hmin m hm (by omega)⟩
  · rw [if_neg hfit]
    refine ⟨⟨q + 1, by rw [hq]; ring⟩, by rw [hG, hF]; omega, ?_⟩
    intro m hm hcm
    obtain ⟨a, ha⟩ := hm
    rw [hG] at hq ha
    rw [hG]
    rw [hF] at hfit hcm
    omega

/-- Delivery of frames on a well-formed store while recording. -/
theorem deliver_spec (items : List (List Int × ReallocOutcome)) (s : AppData)
    (hok : StoreOk s) (hrec : s.recording = true) :
    ∃ rs s', deliver items s = some (rs, s') ∧ StoreOk s' ∧ s'.recording = true ∧
      s'.stream = s.stream ∧ s'.sample_rate = s.sample_rate ∧
      ((∀ r ∈ rs, r = PaStreamCallbackResult.paContinue) →
        s'.recorded_samples_count = s.recorded_samples_count + items.length * FRAMES_PER_BUFFER ∧
        ((∀ p ∈ items, p.1.length = FRAMES_PER_BUFFER) →
          snapshot s' = snapshot s ++ (items.map Prod.fst).flatten) ∧
        (IsLeastMultiple GROWTH_STEP s.recorded_samples_capacity s.recorded_samples_count →
          IsLeastMultiple GROWTH_STEP s'.recorded_samples_capacity s'.recorded_samples_count)) := by
  induction items generalizing s with
  | nil =>
    exact ⟨[], s, rfl, hok, hrec, rfl, rfl, fun _ => ⟨by simp, fun _ => by simp, fun h => h⟩⟩
  | cons p rest ih =>
    obtain ⟨f, alloc⟩ := p
    obtain ⟨r, s1, hcall, hok1, hrec1, hst1, hsr1, _, _, hcont⟩ :=
      pa_callback_recording (framePtr f) alloc s hok hrec
    obtain ⟨rs, s2, hdel, hok2, hrec2, hst2, hsr2, hall⟩ := ih s1 hok1 hrec1
    refine ⟨r :: rs, s2, by simp [deliver, hcall, hdel], hok2, hrec2, by rw [hst2, hst1],
      by rw [hsr2, hsr1], ?_⟩
    intro hrs
    have hr : r = PaStreamCallbackResult.paContinue := hrs r (List.mem_cons_self _ _)
    have hrest : ∀ x ∈ rs, x = PaStreamCallbackResult.paContinue :=
      fun x hx => hrs x (List.mem_cons_of_mem _ hx)
    obtain ⟨hc1, hsnap1, hcap1⟩ := hcont hr
    obtain ⟨hc2, hsnap2, htight2⟩ := hall hrest
    refine ⟨?_, ?_, ?_⟩
    · rw [hc2, hc1, List.length_cons]; ring
    · intro hlen
      have hf : f.length = FRAMES_PER_BUFFER := hlen (f, alloc) (List.mem_cons_self _ _)
      have hrestlen : ∀ q ∈ rest, q.1.length = FRAMES_PER_BUFFER :=
        fun q hq => hlen q (List.mem_cons_of_mem _ hq)
      rw [hsnap2 hrestlen, hsnap1, ← hf, framePtr_range]
      simp
    · intro ht
      apply htight2
      rw [hc1, hcap1]
      exact leastMultiple_step _ _ ht

/-- When every request is granted and there is room below the allocator's
limit, every callback of a delivery returns `paContinue`. -/
theorem deliver_granted (items : List (List Int × ReallocOutcome)) (s : AppData)
    (hok : StoreOk s) (hrec : s.recording = true)
    (hgrant : ∀ p ∈ items, ∃ fresh, p.2 = ReallocOutcome.ok fresh)
    (hroom : (s.recorded_samples_count + items.length * FRAMES_PER_BUFFER + GROWTH_STEP)
      * SIZEOF_SAMPLE ≤ PTRDIFF_MAX)
    (rs : List PaStreamCallbackResult) (s' : AppData)
    (hdel : deliver items s = some (rs, s')) :
    ∀ r ∈ rs, r = PaStreamCallbackResult.paContinue := by
  induction items generalizing s rs with
  | nil =>
    simp only [deliver, Option.some.injEq, Prod.mk.injEq] at hdel
    intro r hr
    rw [← hdel.1] at hr
    cases hr
  | cons p rest ih =>
    obtain ⟨f, alloc⟩ := p
    obtain ⟨fresh, hfresh⟩ := hgrant (f, alloc) (List.mem_cons_self _ _)
    simp only at hfresh
    subst hfresh
    have hF : FRAMES_PER_BUFFER = 256 := rfl
    have hS : SIZEOF_SAMPLE = 2 := rfl
    rw [List.length_cons, hF, hS] at hroom
    obtain ⟨r1, s1, hcall, hok1, hrec1, _, _, _, _, hcont⟩ :=
      pa_callback_recording (framePtr f) (ReallocOutcome.ok fresh) s hok hrec
    have hr1 : r1 = PaStreamCallbackResult.paContinue :=
      pa_callback_granted (framePtr f) fresh s hok hrec (by rw [hF, hS]; omega) r1 s1 hcall
    obtain ⟨hc1, _, _⟩ := hcont hr1
    cases hrest : deliver rest s1 with
    | none => simp [deliver, hcall, hrest] at hdel
    | some res =>
      obtain ⟨rs1, s2⟩ := res
      simp only [deliver, hcall, hrest, Option.some.injEq, Prod.mk.injEq] at hdel
      obtain ⟨hrs, hs2⟩ := hdel
      subst hs2
      have htail := ih s1 hok1 hrec1
        (fun q hq => hgrant q (List.mem_cons_of_mem _ hq))
        (by rw [hc1, hF, hS]; omega) rs1 hrest
      intro r hr
      rw [← hrs] at hr
      rcases List.mem_cons.mp hr with h | h
      · rw [h]; exact hr1
      · exact htail r h

/-- The state after a `start_recording` that returned `TRUE`. -/
theorem start_recording_success (env : PaEnv) (s : AppData)
    (h : (start_recording env s).1 = true) :
    ∃ hdl, (start_recording env s).2.1 =
      { s with stream := some hdl, recorded_samples := none, recorded_samples_capacity := 0,
               recorded_samples_count := 0, recording := true } := by
  unfold start_recording at h ⊢
  cases hrec : s.recording with
  | true => simp [hrec] at h
  | false =>
    cases hi : env.initOk with
    | false => simp [hrec, hi] at h
    | true =>
      cases ho : env.opened with
      | none => simp [hrec, hi, ho] at h
      | some hdl =>
        cases hs : env.startOk with
        | false => simp [hrec, hi, ho, hs] at h
        | true => exact ⟨hdl, by simp⟩

/-- On a well-formed, non-empty store `sf_write_short` reads the snapshot. -/
theorem sf_write_short_snapshot (s : AppData) (hok : StoreOk s)
    (hpos : s.recorded_samples_count ≠ 0) :
    sf_write_short s.recorded_samples s.recorded_samples_count = some (snapshot s) := by
  obtain ⟨hcc, hsz, _⟩ := hok
  cases hb : s.recorded_samples with
  | none =>
    simp [allocated, hb] at hsz
    omega
  | some b =>
    simp [allocated, hb] at hsz
    simp [sf_write_short, snapshot, hb, hsz, hcc]

/-- C2. After a successful `start_recording`, deliver any frames of 256 samples
each to `pa_callback`: the deliveries stay within defined behaviour; every
callback returns `paContinue` when the allocator grants every request and the
recording plus one growth step fits in `PTRDIFF_MAX` bytes; and when every
callback returned `paContinue` (every growth allocation succeeded) then, after
`stop_recording`, `recorded_samples_count` is 256 times the number of frames,
`recorded_samples[0 .. recorded_samples_count)` is the concatenation of the
frames, and that concatenation is what `save_wav` passes to `sf_write_short`
(for no frame at all, `save_wav` has nothing to save). -/
theorem C2_round_trip (env : PaEnv) (s0 : AppData)
    (hstart : (start_recording env s0).1 = true)
    (items : List (List Int × ReallocOutcome))
    (hlen : ∀ p ∈ items, p.1.length = FRAMES_PER_BUFFER) :
    ∃ rs s, deliver items (start_recording env s0).2.1 = some (rs, s) ∧
      ((∀ p ∈ items, ∃ fresh, p.2 = ReallocOutcome.ok fresh) →
        (items.length * FRAMES_PER_BUFFER + GROWTH_STEP) * SIZEOF_SAMPLE ≤ PTRDIFF_MAX →
        ∀ r ∈ rs, r = PaStreamCallbackResult.paContinue) ∧
      ((∀ r ∈ rs, r = PaStreamCallbackResult.paContinue) →
        (stop_recording s).1.recorded_samples_count = items.length * FRAMES_PER_BUFFER ∧
        snapshot (stop_recording s).1 = (items.map Prod.fst).flatten ∧
        save_wav true (stop_recording s).1 =
          some (if items.isEmpty then SaveOutcome.nothingToSave
                else SaveOutcome.written s0.sample_rate CHANNELS (items.map Prod.fst).flatten)) := by
  obtain ⟨hdl, hs1⟩ := start_recording_success env s0 hstart
  rw [hs1]
  obtain ⟨rs, s, hdel, hok, hrec, _, hsr, hall⟩ :=
    deliver_spec items _ (storeOk_reset s0 (some hdl) true) rfl
  refine ⟨rs, s, hdel, ?_, ?_⟩
  · intro hgrant hroom
    refine deliver_granted items _ (storeOk_reset s0 (some hdl) true) rfl hgrant ?_ rs s hdel
    show (0 + items.length * FRAMES_PER_BUFFER + GROWTH_STEP) * SIZEOF_SAMPLE ≤ PTRDIFF_MAX
    rw [Nat.zero_add]
    exact hroom
  intro hrs
  obtain ⟨hc, hsnap, _⟩ := hall hrs
  have hsnap' := hsnap hlen
  simp only [snapshot, List.nil_append, Nat.zero_add] at hc hsnap'
  have hstop : (stop_recording s).1 = { s with recording := false } := by
    simp [stop_recording, hrec]
  have hsnapstop : snapshot { s with recording := false } = snapshot s := rfl
  rw [hstop, hsnapstop]
  refine ⟨hc, hsnap', ?_⟩
  cases items with
  | nil =>
    have : s.recorded_samples_count = 0 := by simpa using hc
    simp [save_wav, this]
  | cons p rest =>
    have hpos : s.recorded_samples_count ≠ 0 := by
      rw [hc]; simp [FRAMES_PER_BUFFER]
    have hw := sf_write_short_snapshot s hok hpos
    have hrate : s.sample_rate = s0.sample_rate := hsr
    simp only [save_wav, hpos, if_false, Bool.not_true, hw, List.isEmpty_cons, hrate]
    simp [snapshot] at hsnap' ⊢
    exact hsnap'

/-- C8. From the reset store (count 0, capacity 0, no block) with the session
recording, deliver any sequence of frames to `pa_callback`: the deliveries stay
within defined behaviour; every callback returns `paContinue` when the
allocator grants every request and the recording plus one growth step fits in
`PTRDIFF_MAX` bytes; and when every callback returned `paContinue` (every
allocation succeeded) the count is 256 times the number of frames delivered,
the block has as many slots as the capacity says, the capacity is the smallest
multiple of `44100 * 10` that is at least the count, and it exceeds the count
by less than `44100 * 10`.  One more callback leaves the capacity as it is or
adds exactly `44100 * 10`: when it returns `paContinue` it has appended 256
samples and has grown the block, by exactly the step, if and only if the 256
samples did not fit; otherwise growth was required and refused, and count and
capacity are unchanged. -/
theorem C8_coarse_tight_growth (s0 : AppData) (hrec : s0.recording = true)
    (hcount : s0.recorded_samples_count = 0) (hcap : s0.recorded_samples_capacity = 0)
    (hptr : s0.recorded_samples = none)
    (items : List (List Int × ReallocOutcome)) :
    ∃ rs s, deliver items s0 = some (rs, s) ∧
      ((∀ p ∈ items, ∃ fresh, p.2 = ReallocOutcome.ok fresh) →
        (items.length * FRAMES_PER_BUFFER + GROWTH_STEP) * SIZEOF_SAMPLE ≤ PTRDIFF_MAX →
        ∀ r ∈ rs, r = PaStreamCallbackResult.paContinue) ∧
      ((∀ r ∈ rs, r = PaStreamCallbackResult.paContinue) →
        s.recorded_samples_count = items.length * FRAMES_PER_BUFFER ∧
        allocated s = s.recorded_samples_capacity ∧
        IsLeastMultiple GROWTH_STEP s.recorded_samples_capacity s.recorded_samples_count ∧
        s.recorded_samples_capacity - s.recorded_samples_count < GROWTH_STEP ∧
        ∀ (f : List Int) (alloc : ReallocOutcome),
          ∃ r s', pa_callback (some (framePtr f)) FRAMES_PER_BUFFER alloc s = some (r, s') ∧
            (s'.recorded_samples_capacity = s.recorded_samples_capacity ∨
             s'.recorded_samples_capacity = s.recorded_samples_capacity + GROWTH_STEP) ∧
            (r = PaStreamCallbackResult.paContinue →
              s'.recorded_samples_count = s.recorded_samples_count + FRAMES_PER_BUFFER ∧
              allocated s' = s'.recorded_samples_capacity ∧
              s'.recorded_samples_capacity =
                if s.recorded_samples_count + FRAMES_PER_BUFFER ≤ s.recorded_samples_capacity
                then s.recorded_samples_capacity
                else s.recorded_samples_capacity + GROWTH_STEP) ∧
            (r ≠ PaStreamCallbackResult.paContinue →
              s.recorded_samples_capacity < s.recorded_samples_count + FRAMES_PER_BUFFER ∧
              s'.recorded_samples_count = s.recorded_samples_count ∧
              s'.recorded_samples_capacity = s.recorded_samples_capacity)) := by
  have hok0 : StoreOk s0 := by
    refine ⟨by omega, by simp [allocated, hptr, hcap], ?_⟩
    rw [hcap, ptrdiff_max_val]; decide
  obtain ⟨rs, s, hdel, hok, hrec', _, _, hall⟩ := deliver_spec items s0 hok0 hrec
  refine ⟨rs, s, hdel, ?_, ?_⟩
  · intro hgrant hroom
    refine deliver_granted items s0 hok0 hrec hgrant ?_ rs s hdel
    rw [hcount, Nat.zero_add]
    exact hroom
  intro hrs
  obtain ⟨hcnt, _, htight⟩ := hall hrs
  rw [hcount, Nat.zero_add] at hcnt
  have ht : IsLeastMultiple GROWTH_STEP s.recorded_samples_capacity s.recorded_samples_count := by
    apply htight
    rw [hcap, hcount]
    exact ⟨dvd_zero _, le_refl _, fun m _ _ => Nat.zero_le m⟩
  refine ⟨hcnt, hok.2.1, ht, ?_, ?_⟩
  · obtain ⟨⟨q, hq⟩, hle, hmin⟩ := ht
    by_contra hcon
    have hG := growth_step_val
    rw [hG] at hcon hq
    have hq1 : 1 ≤ q := by omega
    have := hmin (GROWTH_STEP * (q - 1)) ⟨q - 1, rfl⟩ (by rw [hG]; omega)
    rw [hG] at this
    omega
  · intro f alloc
    obtain ⟨r, s', hcall, hok', _, _, _, hr, hcomp, hcont⟩ :=
      pa_callback_recording (framePtr f) alloc s hok hrec'
    refine ⟨r, s', hcall, ?_, ?_, ?_⟩
    · rcases hr with hr | hr
      · obtain ⟨_, _, hc⟩ := hcont hr
        rw [hc]
        split
        · exact Or.inl rfl
        · exact Or.inr rfl
      · exact Or.inl (hcomp hr).2.2.1
    · intro hr'
      obtain ⟨hc1, _, hc3⟩ := hcont hr'
      exact ⟨hc1, hok'.2.1, hc3⟩
    · intro hr'
      rcases hr with hr | hr
      · exact absurd hr hr'
      · obtain ⟨_, h2, h3, h4, _⟩ := hcomp hr
        exact ⟨h4, h2, h3⟩

/-- C7. When the session is already active, `start_recording` returns `FALSE`,
makes no PortAudio call (no `Pa_Initialize`, no `Pa_OpenDefaultStream`) and
leaves the whole state, the recorded samples, count and capacity included,
unchanged. -/
theorem C7_second_start_rejected (env : PaEnv) (s : AppData) (hrec : s.recording = true) :
    start_recording env s = (false, s, []) := by
  simp [start_recording, hrec]

/-- C5. While recording, for a non-null frame that fits `buffer`: if growth is
required and `realloc` returns `NULL`, the callback returns `paComplete` and
`recorded_samples` (pointer and contents), `recorded_samples_count` and
`recorded_samples_capacity` are what they were before the call. -/
theorem C5_failed_growth_keeps_store (inp : Nat → Int) (n : Nat)
    (hn : n ≤ FRAMES_PER_BUFFER) (alloc : ReallocOutcome) (s : AppData)
    (hrec : s.recording = true) (hgrow : needsGrowth s n = true)
    (hfail : realloc alloc s.recorded_samples (growthBytes s) = none) :
    ∃ s', pa_callback (some inp) n alloc s = some (PaStreamCallbackResult.paComplete, s') ∧
      s'.recorded_samples_count = s.recorded_samples_count ∧
      s'.recorded_samples_capacity = s.recorded_samples_capacity ∧
      s'.recorded_samples = s.recorded_samples ∧
      snapshot s' = snapshot s :=
  ⟨_, pa_callback_alloc_failure inp n hn alloc s hrec hgrow hfail, rfl, rfl, rfl, rfl⟩

/-- C4, as amended. While recording, for a non-null frame that fits `buffer`:
if growth is required and `realloc` returns `NULL`, then when the callback
returns it has returned `paComplete` and the `recording` flag is still
`TRUE`. -/
theorem C4_failed_growth_returns_paComplete (inp : Nat → Int) (n : Nat)
    (hn : n ≤ FRAMES_PER_BUFFER) (alloc : ReallocOutcome) (s : AppData)
    (hrec : s.recording = true) (hgrow : needsGrowth s n = true)
    (hfail : realloc alloc s.recorded_samples (growthBytes s) = none) :
    (pa_callback (some inp) n alloc s).map (fun r => (r.1, r.2.recording)) =
      some (PaStreamCallbackResult.paComplete, true) := by
  rw [pa_callback_alloc_failure inp n hn alloc s hrec hgrow hfail]
  simp [hrec]

/-- C4, counterexample. In the state right after a successful
`start_recording`, a callback with a non-null frame needs growth; when
`realloc` fails it returns `paComplete` with `recording` still `TRUE`. -/
theorem C4_recording_stays_set :
    (start_recording ⟨true, some 1, true⟩ app_data).2.1.recording = true ∧
    needsGrowth (start_recording ⟨true, some 1, true⟩ app_data).2.1 FRAMES_PER_BUFFER = true ∧
    realloc ReallocOutcome.fail (start_recording ⟨true, some 1, true⟩ app_data).2.1.recorded_samples
      (growthBytes (start_recording ⟨true, some 1, true⟩ app_data).2.1) = none ∧
    (pa_callback (some (fun _ => 5)) FRAMES_PER_BUFFER ReallocOutcome.fail
        (start_recording ⟨true, some 1, true⟩ app_data).2.1).map
      (fun r => (r.1, r.2.recording)) = some (PaStreamCallbackResult.paComplete, true) := by
  refine ⟨rfl, by decide, rfl, by decide⟩

/-- C3, as amended. A sample-rate change while recording is active resets the
store when the restart succeeds: after the handler `recorded_samples` is
`NULL`, count and capacity are 0, and `sample_rate` is the new rate. -/
theorem C3_restart_resets_store (new_rate : Int) (env : PaEnv) (s : AppData)
    (hrec : s.recording = true)
    (hrestart : (on_freq_scale_value_changed new_rate env s).1.recording = true) :
    (on_freq_scale_value_changed new_rate env s).1.recorded_samples = none ∧
    (on_freq_scale_value_changed new_rate env s).1.recorded_samples_count = 0 ∧
    (on_freq_scale_value_changed new_rate env s).1.recorded_samples_capacity = 0 ∧
    (on_freq_scale_value_changed new_rate env s).1.sample_rate = new_rate := by
  obtain ⟨buf, ready, rate, rec, st, ptr, cap, cnt⟩ := s
  simp only at hrec
  subst hrec
  have hhandler : (on_freq_scale_value_changed new_rate env
        ⟨buf, ready, rate, true, st, ptr, cap, cnt⟩).1 =
      (start_recording env ⟨buf, ready, new_rate, false, st, ptr, cap, cnt⟩).2.1 := rfl
  rw [hhandler] at hrestart ⊢
  have hsucc : (start_recording env ⟨buf, ready, new_rate, false, st, ptr, cap, cnt⟩).1
      = true := by
    unfold start_recording at hrestart ⊢
    cases hi : env.initOk with
    | false => simp [hi] at hrestart
    | true =>
      cases ho : env.opened with
      | none => simp [hi, ho] at hrestart
      | some hdl =>
        cases hs : env.startOk with
        | false => simp [hi, ho, hs] at hrestart
        | true => simp
  obtain ⟨hdl, heq⟩ := start_recording_success env _ hsucc
  rw [heq]
  exact ⟨rfl, rfl, rfl, rfl⟩

/-- C3, counterexample. After a successful start and one recorded frame the
store holds 256 samples in a block of 441000; a rate change whose restart
succeeds leaves the session recording with an empty store and no block. -/
theorem C3_store_not_preserved :
    (run [Action.start ⟨true, some 1, true⟩,
          Action.callback (some (fun _ => 5)) (ReallocOutcome.ok (fun _ => 0))] app_data).map
      (fun s => (s.recording, s.recorded_samples_count, s.recorded_samples_capacity,
        (snapshot s).take 2,
        (on_freq_scale_value_changed 44100 ⟨true, some 2, true⟩ s).1.recording,
        (on_freq_scale_value_changed 44100 ⟨true, some 2, true⟩ s).1.recorded_samples_count,
        (on_freq_scale_value_changed 44100 ⟨true, some 2, true⟩ s).1.recorded_samples_capacity,
        snapshot (on_freq_scale_value_changed 44100 ⟨true, some 2, true⟩ s).1))
      = some (true, 256, 441000, [5, 5], true, 0, 0, []) := by
  rfl

/-- C6, as amended. In every state reached from `app_data` by any sequence of
`start_recording` (succeeding, or failing at any of its three driver calls),
`stop_recording` and callback invocations, an active session has a non-null
stream handle. -/
theorem C6_active_has_stream (acts : List Action) :
    ∃ s, run acts app_data = some s ∧ (s.recording = true → s.stream ≠ none) := by
  obtain ⟨s, hrun, hok⟩ := run_sessionOk acts app_data sessionOk_app_data
  exact ⟨s, hrun, hok.2⟩

/-- C6, counterexample. After a successful `start_recording` followed by
`stop_recording` the stream field still holds the closed handle while
`recording` is `FALSE`. -/
theorem C6_stale_handle_after_stop :
    (run [Action.start ⟨true, some 1, true⟩, Action.stop] app_data).map
      (fun s => (s.stream, s.recording)) = some (some 1, false) := by
  decide

/-- An accumulation loop is a sum. -/
theorem foldl_add_eq_sum (g : Nat → ℚ) (l : List Nat) (a : ℚ) :
    l.foldl (fun acc i => acc + g i) a = a + (l.map g).sum := by
  induction l generalizing a with
  | nil => simp
  | cons x xs ih => simp [List.foldl, ih, add_assoc]

/-- The loop of `on_draw` as a sum over the 256 indices. -/
theorem rms_accumulate_eq_sum (buffer : Nat → Int) :
    rms_accumulate buffer =
      ((List.range FRAMES_PER_BUFFER).map
        (fun i => ((buffer i : ℚ) / 32768) * ((buffer i : ℚ) / 32768))).sum := by
  unfold rms_accumulate
  rw [foldl_add_eq_sum]
  simp

/-- A sum of terms in [0, 1] lies between 0 and the number of terms. -/
theorem sum_map_bounds (g : Nat → ℚ) (l : List Nat)
    (h : ∀ i ∈ l, 0 ≤ g i ∧ g i ≤ 1) :
    0 ≤ (l.map g).sum ∧ (l.map g).sum ≤ (l.length : ℚ) := by
  induction l with
  | nil => simp
  | cons x xs ih =>
    have hx := h x (List.mem_cons_self _ _)
    have hxs := ih (fun i hi => h i (List.mem_cons_of_mem _ hi))
    simp only [List.map_cons, List.sum_cons, List.length_cons, Nat.cast_add, Nat.cast_one]
    constructor
    · linarith [hx.1, hxs.1]
    · linarith [hx.2, hxs.2]

/-- A sum of equal terms. -/
theorem sum_map_const (g : Nat → ℚ) (c : ℚ) (l : List Nat) (h : ∀ i ∈ l, g i = c) :
    (l.map g).sum = (l.length : ℚ) * c := by
  induction l with
  | nil => simp
  | cons x xs ih =>
    have hx := h x (List.mem_cons_self _ _)
    have hxs := ih (fun i hi => h i (List.mem_cons_of_mem _ hi))
    simp only [List.map_cons, List.sum_cons, List.length_cons, Nat.cast_add, Nat.cast_one]
    rw [hx, hxs]
    ring

/-- The square of a normalised 16-bit sample lies in [0, 1]. -/
theorem normalized_square_bounds (x : Int) (hlo : -32768 ≤ x) (hhi : x ≤ 32767) :
    0 ≤ ((x : ℚ) / 32768) * ((x : ℚ) / 32768) ∧ ((x : ℚ) / 32768) * ((x : ℚ) / 32768) ≤ 1 := by
  have h1 : (-32768 : ℚ) ≤ (x : ℚ) := by exact_mod_cast hlo
  have h2 : (x : ℚ) ≤ 32767 := by exact_mod_cast hhi
  constructor
  · exact mul_self_nonneg _
  · have ha : -1 ≤ (x : ℚ) / 32768 := by
      rw [le_div_iff₀ (by norm_num)]; linarith
    have hb : (x : ℚ) / 32768 ≤ 1 := by
      rw [div_le_iff₀ (by norm_num)]; linarith
    nlinarith

/-- C10. For a written frame of 256 samples in the 16-bit range, take the RMS
of `on_draw` in exact real arithmetic, the square root of the mean of the
squared normalised samples: it lies in [0, 1], it is 0 for the all-zero frame
and 32767/32768 for the frame of constant 32767, and for every width at least
0 the bar width `floor (rms * width)` lies in [0, width]. -/
theorem C10_rms_range (data : AppData) (hready : data.buffer_ready ≠ 0)
    (hrange : ∀ i, i < FRAMES_PER_BUFFER → -32768 ≤ data.buffer i ∧ data.buffer i ≤ 32767) :
    ∃ ms : ℚ, on_draw_mean_square data = some ms ∧
      0 ≤ Real.sqrt (ms : ℝ) ∧ Real.sqrt (ms : ℝ) ≤ 1 ∧
      ((∀ i, i < FRAMES_PER_BUFFER → data.buffer i = 0) → Real.sqrt (ms : ℝ) = 0) ∧
      ((∀ i, i < FRAMES_PER_BUFFER → data.buffer i = 32767) →
        Real.sqrt (ms : ℝ) = 32767 / 32768) ∧
      ∀ width : Int, 0 ≤ width →
        0 ≤ ⌊Real.sqrt (ms : ℝ) * (width : ℝ)⌋ ∧ ⌊Real.sqrt (ms : ℝ) * (width : ℝ)⌋ ≤ width := by
  refine ⟨rms_accumulate data.buffer / (FRAMES_PER_BUFFER : ℚ), by simp [on_draw_mean_square, hready], ?_⟩
  have hsum := rms_accumulate_eq_sum data.buffer
  have hbounds := sum_map_bounds
    (fun i => ((data.buffer i : ℚ) / 32768) * ((data.buffer i : ℚ) / 32768))
    (List.range FRAMES_PER_BUFFER)
    (fun i hi => normalized_square_bounds _ (hrange i (List.mem_range.mp hi)).1
      (hrange i (List.mem_range.mp hi)).2)
  rw [← hsum, List.length_range] at hbounds
  have hF : ((FRAMES_PER_BUFFER : ℕ) : ℚ) = 256 := by norm_num [FRAMES_PER_BUFFER]
  rw [hF] at hbounds ⊢
  have hms0 : (0 : ℚ) ≤ rms_accumulate data.buffer / 256 := by
    apply div_nonneg hbounds.1; norm_num
  have hms1 : rms_accumulate data.buffer / 256 ≤ (1 : ℚ) := by
    rw [div_le_iff₀ (by norm_num)]; linarith [hbounds.2]
  have hr0 : (0 : ℝ) ≤ ((rms_accumulate data.buffer / 256 : ℚ) : ℝ) := by exact_mod_cast hms0
  have hr1 : ((rms_accumulate data.buffer / 256 : ℚ) : ℝ) ≤ 1 := by exact_mod_cast hms1
  have hs0 := Real.sqrt_nonneg ((rms_accumulate data.buffer / 256 : ℚ) : ℝ)
  have hs1 : Real.sqrt ((rms_accumulate data.buffer / 256 : ℚ) : ℝ) ≤ 1 := by
    rw [Real.sqrt_le_left (by norm_num)]
    simpa using hr1
  refine ⟨hs0, hs1, ?_, ?_, ?_⟩
  · intro hz
    have : rms_accumulate data.buffer = 0 := by
      rw [hsum, sum_map_const _ 0 _ (fun i hi => by simp [hz i (List.mem_range.mp hi)])]
      simp
    rw [this]
    simp
  · intro hc
    have : rms_accumulate data.buffer = 256 * ((32767 / 32768) * (32767 / 32768)) := by
      rw [hsum, sum_map_const _ ((32767 / 32768) * (32767 / 32768)) _
        (fun i hi => by simp [hc i (List.mem_range.mp hi)])]
      simp [FRAMES_PER_BUFFER]
    rw [this]
    have hq : ((256 * ((32767 / 32768) * (32767 / 32768)) / 256 : ℚ) : ℝ) =
        (32767 / 32768 : ℝ) * (32767 / 32768 : ℝ) := by
      push_cast; ring
    rw [hq, Real.sqrt_mul_self (by norm_num)]
  · intro width hw
    have hwr : (0 : ℝ) ≤ (width : ℝ) := by exact_mod_cast hw
    constructor
    · exact Int.floor_nonneg.mpr (mul_nonneg hs0 hwr)
    · have h1 := Int.floor_le (Real.sqrt ((rms_accumulate data.buffer / 256 : ℚ) : ℝ) * (width : ℝ))
      have h2 : Real.sqrt ((rms_accumulate data.buffer / 256 : ℚ) : ℝ) * (width : ℝ) ≤ width := by
        calc Real.sqrt ((rms_accumulate data.buffer / 256 : ℚ) : ℝ) * (width : ℝ)
            ≤ 1 * (width : ℝ) := mul_le_mul_of_nonneg_right hs1 hwr
          _ = width := one_mul _
      exact_mod_cast le_trans h1 h2

/-- C2 at one frame of constant 7 after a start from `app_data`. -/
theorem C2_round_trip_witness :
    (start_recording ⟨true, some 1, true⟩ app_data).1 = true ∧
    ∃ s, deliver [(List.replicate 256 7, ReallocOutcome.ok (fun _ => 0))]
          (start_recording ⟨true, some 1, true⟩ app_data).2.1
        = some ([PaStreamCallbackResult.paContinue], s) ∧
      (stop_recording s).1.recorded_samples_count = 256 ∧
      snapshot (stop_recording s).1 = List.replicate 256 7 ∧
      save_wav true (stop_recording s).1 =
        some (SaveOutcome.written 0 1 (List.replicate 256 7)) := by
  refine ⟨rfl, ?_⟩
  obtain ⟨rs, s, hdel, _, himp⟩ := C2_round_trip ⟨true, some 1, true⟩ app_data rfl
    [(List.replicate 256 7, ReallocOutcome.ok (fun _ => 0))]
    (by intro p hp; simp only [List.mem_singleton] at hp; subst hp
        exact List.length_replicate 256 7)
  have hrs : (deliver [(List.replicate 256 7, ReallocOutcome.ok (fun _ => 0))]
      (start_recording ⟨true, some 1, true⟩ app_data).2.1).map Prod.fst
        = some [PaStreamCallbackResult.paContinue] := by decide
  rw [hdel] at hrs
  simp only [Option.map_some', Option.some.injEq] at hrs
  subst hrs
  obtain ⟨h1, h2, h3⟩ := himp (by simp)
  refine ⟨s, hdel, h1, ?_, ?_⟩
  · rw [h2]
    simp only [List.map_cons, List.map_nil, List.flatten_cons, List.flatten_nil,
      List.append_nil]
  · rw [h3]
    simp only [List.isEmpty_cons, List.map_cons, List.map_nil, List.flatten_cons,
      List.flatten_nil, List.append_nil]
    rfl

/-- C3 (amended) at the state right after a successful start. -/
theorem C3_restart_resets_store_witness :
    (start_recording ⟨true, some 1, true⟩ app_data).2.1.recording = true ∧
    (on_freq_scale_value_changed 44100 ⟨true, some 2, true⟩
      (start_recording ⟨true, some 1, true⟩ app_data).2.1).1.recording = true ∧
    (on_freq_scale_value_changed 44100 ⟨true, some 2, true⟩
      (start_recording ⟨true, some 1, true⟩ app_data).2.1).1.recorded_samples = none ∧
    (on_freq_scale_value_changed 44100 ⟨true, some 2, true⟩
      (start_recording ⟨true, some 1, true⟩ app_data).2.1).1.recorded_samples_count = 0 ∧
    (on_freq_scale_value_changed 44100 ⟨true, some 2, true⟩
      (start_recording ⟨true, some 1, true⟩ app_data).2.1).1.recorded_samples_capacity = 0 ∧
    (on_freq_scale_value_changed 44100 ⟨true, some 2, true⟩
      (start_recording ⟨true, some 1, true⟩ app_data).2.1).1.sample_rate = 44100 :=
  ⟨rfl, rfl, C3_restart_resets_store 44100 ⟨true, some 2, true⟩
    (start_recording ⟨true, some 1, true⟩ app_data).2.1 rfl rfl⟩

/-- C4 (amended) at the first callback after a start, `realloc` refusing. -/
theorem C4_failed_growth_returns_paComplete_witness :
    FRAMES_PER_BUFFER ≤ FRAMES_PER_BUFFER ∧
    (start_recording ⟨true, some 1, true⟩ app_data).2.1.recording = true ∧
    needsGrowth (start_recording ⟨true, some 1, true⟩ app_data).2.1 FRAMES_PER_BUFFER = true ∧
    realloc ReallocOutcome.fail (start_recording ⟨true, some 1, true⟩ app_data).2.1.recorded_samples
      (growthBytes (start_recording ⟨true, some 1, true⟩ app_data).2.1) = none ∧
    (pa_callback (some (fun i => (i : Int))) FRAMES_PER_BUFFER ReallocOutcome.fail
        (start_recording ⟨true, some 1, true⟩ app_data).2.1).map
      (fun r => (r.1, r.2.recording)) =
      some (PaStreamCallbackResult.paComplete, true) :=
  ⟨le_refl _, rfl, by decide, rfl,
    C4_failed_growth_returns_paComplete (fun i => (i : Int)) FRAMES_PER_BUFFER (le_refl _)
      ReallocOutcome.fail (start_recording ⟨true, some 1, true⟩ app_data).2.1 rfl (by decide) rfl⟩

/-- C5 at the first callback after a start, `realloc` refusing. -/
theorem C5_failed_growth_keeps_store_witness :
    FRAMES_PER_BUFFER ≤ FRAMES_PER_BUFFER ∧
    (start_recording ⟨true, some 1, true⟩ app_data).2.1.recording = true ∧
    needsGrowth (start_recording ⟨true, some 1, true⟩ app_data).2.1 FRAMES_PER_BUFFER = true ∧
    realloc ReallocOutcome.fail (start_recording ⟨true, some 1, true⟩ app_data).2.1.recorded_samples
      (growthBytes (start_recording ⟨true, some 1, true⟩ app_data).2.1) = none ∧
    ∃ s', pa_callback (some (fun i => (i : Int))) FRAMES_PER_BUFFER ReallocOutcome.fail
          (start_recording ⟨true, some 1, true⟩ app_data).2.1
        = some (PaStreamCallbackResult.paComplete, s') ∧
      s'.recorded_samples_count =
        (start_recording ⟨true, some 1, true⟩ app_data).2.1.recorded_samples_count ∧
      s'.recorded_samples_capacity =
        (start_recording ⟨true, some 1, true⟩ app_data).2.1.recorded_samples_capacity ∧
      s'.recorded_samples = (start_recording ⟨true, some 1, true⟩ app_data).2.1.recorded_samples ∧
      snapshot s' = snapshot (start_recording ⟨true, some 1, true⟩ app_data).2.1 :=
  ⟨le_refl _, rfl, by decide, rfl,
    C5_failed_growth_keeps_store (fun i => (i : Int)) FRAMES_PER_BUFFER (le_refl _)
      ReallocOutcome.fail (start_recording ⟨true, some 1, true⟩ app_data).2.1 rfl (by decide) rfl⟩

/-- C6 (amended) at the state after one successful start. -/
theorem C6_active_has_stream_witness :
    ∃ s, run [Action.start ⟨true, some 1, true⟩] app_data = some s ∧
      s.recording = true ∧ s.stream ≠ none := by
  obtain ⟨s, hrun, himp⟩ := C6_active_has_stream [Action.start ⟨true, some 1, true⟩]
  have hrec : (run [Action.start ⟨true, some 1, true⟩] app_data).map (fun t => t.recording)
      = some true := by decide
  rw [hrun] at hrec
  simp only [Option.map_some', Option.some.injEq] at hrec
  exact ⟨s, hrun, hrec, himp hrec⟩

/-- C7 at a second start right after a successful one. -/
theorem C7_second_start_rejected_witness :
    (start_recording ⟨true, some 1, true⟩ app_data).2.1.recording = true ∧
    start_recording ⟨true, some 2, true⟩ (start_recording ⟨true, some 1, true⟩ app_data).2.1 =
      (false, (start_recording ⟨true, some 1, true⟩ app_data).2.1, []) :=
  ⟨rfl, C7_second_start_rejected ⟨true, some 2, true⟩
    (start_recording ⟨true, some 1, true⟩ app_data).2.1 rfl⟩

/-- C8 at two frames, the second of which needs no growth. -/
theorem C8_coarse_tight_growth_witness :
    (start_recording ⟨true, some 1, true⟩ app_data).2.1.recording = true ∧
    (start_recording ⟨true, some 1, true⟩ app_data).2.1.recorded_samples_count = 0 ∧
    (start_recording ⟨true, some 1, true⟩ app_data).2.1.recorded_samples_capacity = 0 ∧
    (start_recording ⟨true, some 1, true⟩ app_data).2.1.recorded_samples = none ∧
    ∃ s, deliver [(List.replicate 256 7, ReallocOutcome.ok (fun _ => 0)),
                  (List.replicate 256 9, ReallocOutcome.fail)]
          (start_recording ⟨true, some 1, true⟩ app_data).2.1
        = some ([PaStreamCallbackResult.paContinue, PaStreamCallbackResult.paContinue], s) ∧
      s.recorded_samples_count = 512 ∧ s.recorded_samples_capacity = 441000 ∧
      IsLeastMultiple GROWTH_STEP s.recorded_samples_capacity s.recorded_samples_count ∧
      s.recorded_samples_capacity - s.recorded_samples_count < GROWTH_STEP := by
  refine ⟨rfl, rfl, rfl, rfl, ?_⟩
  obtain ⟨rs, s, hdel, _, himp⟩ := C8_coarse_tight_growth
    (start_recording ⟨true, some 1, true⟩ app_data).2.1 rfl rfl rfl rfl
    [(List.replicate 256 7, ReallocOutcome.ok (fun _ => 0)),
     (List.replicate 256 9, ReallocOutcome.fail)]
  have hrs : (deliver [(List.replicate 256 7, ReallocOutcome.ok (fun _ => 0)),
                  (List.replicate 256 9, ReallocOutcome.fail)]
      (start_recording ⟨true, some 1, true⟩ app_data).2.1).map
        (fun r => (r.1, r.2.recorded_samples_count, r.2.recorded_samples_capacity))
      = some ([PaStreamCallbackResult.paContinue, PaStreamCallbackResult.paContinue],
          512, 441000) := by decide
  rw [hdel] at hrs
  simp only [Option.map_some', Option.some.injEq, Prod.mk.injEq] at hrs
  obtain ⟨h1, h2, h3⟩ := hrs
  subst h1
  obtain ⟨_, _, ht, hlt, _⟩ := himp (by simp)
  exact ⟨s, hdel, h2, h3, ht, hlt⟩

/-- C10 at the written frame of constant 32767. -/
theorem C10_rms_range_witness :
    ({ app_data with buffer := fun _ => 32767, buffer_ready := 1 } : AppData).buffer_ready ≠ 0 ∧
    (∀ i, i < FRAMES_PER_BUFFER →
      -32768 ≤ ({ app_data with buffer := fun _ => 32767, buffer_ready := 1 } : AppData).buffer i ∧
      ({ app_data with buffer := fun _ => 32767, buffer_ready := 1 } : AppData).buffer i ≤ 32767) ∧
    ∃ ms : ℚ,
      on_draw_mean_square { app_data with buffer := fun _ => 32767, buffer_ready := 1 } = some ms ∧
      0 ≤ Real.sqrt (ms : ℝ) ∧ Real.sqrt (ms : ℝ) ≤ 1 ∧
      Real.sqrt (ms : ℝ) = 32767 / 32768 := by
  have hready : ({ app_data with buffer := fun _ => 32767, buffer_ready := 1 } :
      AppData).buffer_ready ≠ 0 := by decide
  have hrange : ∀ i, i < FRAMES_PER_BUFFER →
      -32768 ≤ ({ app_data with buffer := fun _ => 32767, buffer_ready := 1 } : AppData).buffer i ∧
      ({ app_data with buffer := fun _ => 32767, buffer_ready := 1 } : AppData).buffer i ≤ 32767 :=
    fun _ _ => by
      show (-32768 : Int) ≤ 32767 ∧ (32767 : Int) ≤ 32767
      decide
  obtain ⟨ms, h1, h2, h3, _, h5, _⟩ := C10_rms_range _ hready hrange
  exact ⟨hready, hrange, ms, h1, h2, h3, h5 (fun _ _ => rfl)⟩

end Osciloscopio
